import Mathlib

/-!
Verification development for the maxflow client library.

The repository contains a debounced batching queue layered over an HTTP
transport, together with a query builder that serializes a structured
filter description.  Two source variants exist: maxflowClient.ts (also
duplicated at src/maxflowClient.ts with minor additions) and maxflow.ts.
We embed both where they differ.

Conventions of the embedding:
- JavaScript values appearing in the query builder are modelled by the
  inductive type JVal, with property lookup returning JVal.undefined when a
  key is absent, as in JavaScript.
- JavaScript objects are association lists in insertion order; assigning
  to an existing key keeps its position (setKey).
- The HTTP transport is an oracle function from the request payload to
  an Except outcome; promise rejection is modelled as the error side of
  Except.
- The single-threaded client state (queue, both timers, settlement log)
  is a structure, and the event loop is a list of steps interpreted by a
  fold; timer callbacks may fire in any order, including the race where
  both the quiet timer and the max-wait timer invoke the flush routine.
-/

/-- Model of a JavaScript value as used by the pulse find query builder.
Objects are association lists of key and value in insertion order. -/
inductive JVal where
  | undefined : JVal
  | vnull : JVal
  | vbool : Bool → JVal
  | vnum : Int → JVal
  | vstr : String → JVal
  | varr : List JVal → JVal
  | vobj : List (String × JVal) → JVal

mutual

/-- Model of the JavaScript ToString operation on array elements, where
undefined and null stringify to the empty string inside an array join. -/
def jsElemString : JVal → String
  | .undefined => ""
  | .vnull => ""
  | .vbool b => cond b "true" "false"
  | .vnum n => toString n
  | .vstr s => s
  | .varr xs => jsArrString xs
  | .vobj _ => "[object Object]"

/-- Model of Array.prototype.toString: elements joined with commas. -/
def jsArrString : List JVal → String
  | [] => ""
  | [v] => jsElemString v
  | v :: rest => jsElemString v ++ "," ++ jsArrString rest

end

/-- Model of the JavaScript ToString operation, used when a value becomes
a computed property key or is interpolated into a template literal. -/
def jsToString : JVal → String
  | .undefined => "undefined"
  | .vnull => "null"
  | .vbool b => cond b "true" "false"
  | .vnum n => toString n
  | .vstr s => s
  | .varr xs => jsArrString xs
  | .vobj _ => "[object Object]"

/-- Property read on a JavaScript object given as an association list:
the value at the first matching key, or undefined when absent. -/
def recGet (fields : List (String × JVal)) (k : String) : JVal :=
  match fields.find? (fun p => p.1 == k) with
  | some p => p.2
  | none => .undefined

/-- Property assignment on a JavaScript object: overwrite the value at an
existing key in place, otherwise append the new key at the end. -/
def setKey : List (String × JVal) → String → JVal → List (String × JVal)
  | [], k, v => [(k, v)]
  | p :: rest, k, v => if p.1 == k then (k, v) :: rest else p :: setKey rest k v

/-- Lookup of a key in an association list as an Option. -/
def lookupKey (o : List (String × JVal)) (k : String) : Option JVal :=
  (o.find? (fun p => p.1 == k)).map (fun p => p.2)

/-- Fields of an object value; empty for non-objects. -/
def objFields : JVal → List (String × JVal)
  | .vobj fs => fs
  | _ => []

/-- Property lookup on a JVal object as an Option. -/
def jsGet (v : JVal) (k : String) : Option JVal :=
  lookupKey (objFields v) k

/-- One match condition triple of the findData interface:
field, operator and value. -/
structure MatchTriple where
  field : String
  operator : String
  value : JVal

/-- The two accepted shapes of the findData match input: a list of
triples, or a flat record mapping keys to arbitrary values. -/
inductive MatchInput where
  | list : List MatchTriple → MatchInput
  | flat : List (String × JVal) → MatchInput

/-- One entry of the findData orderBy list. -/
structure OrderBy where
  field : String
  order : Option String := none
  direction : Option Int := none

/-- The findData query descriptor of pulse.find.  The field named match
in the source is called matchQ here because match is a Lean keyword. -/
structure FindData where
  matchQ : Option MatchInput := none
  page : Option Int := none
  pageSize : Option Int := none
  sort : Option String := none
  orderBy : Option (List OrderBy) := none
  search : Option JVal := none

/-- The condition object built from one triple: the operator prefixed
with a dollar sign, mapped to the value. -/
def condObj (t : MatchTriple) : JVal :=
  .vobj [("$" ++ t.operator, t.value)]

/-- The match object built from a list of triples by repeated property
assignment, as in the for loop of pulse.find in both variants. -/
def buildMatchList (ts : List MatchTriple) : List (String × JVal) :=
  ts.foldl (fun acc t => setKey acc t.field (condObj t)) []

/-- Match entry of the query in the maxflowClient.ts variant.  In the
flat branch the source reads the field, operator and value properties of
the record itself and builds a single prefixed condition from them. -/
def matchFields (d : FindData) : List (String × JVal) :=
  match d.matchQ with
  | none => []
  | some (.list ts) => [("match", .vobj (buildMatchList ts))]
  | some (.flat m) =>
      [("match", .vobj [(jsToString (recGet m "field"),
        .vobj [("$" ++ jsToString (recGet m "operator"), recGet m "value")])])]

/-- Page and pageSize entries: included exactly when not undefined. -/
def pageFields (d : FindData) : List (String × JVal) :=
  (match d.page with
   | some p => [("page", JVal.vnum p)]
   | none => []) ++
  (match d.pageSize with
   | some ps => [("pageSize", JVal.vnum ps)]
   | none => [])

/-- Search entry: the search descriptor passes through unchanged. -/
def searchFields (d : FindData) : List (String × JVal) :=
  match d.search with
  | some sv => [("search", sv)]
  | none => []

/-- Normalization of one orderBy entry in the maxflowClient.ts variant:
direction is the explicit numeric direction when not null or undefined
(nullish coalescing), else minus one for order desc, else one. -/
def normOrderClient (ob : OrderBy) : JVal :=
  .vobj [("field", .vstr ob.field),
         ("direction", .vnum (ob.direction.getD
            (if ob.order = some "desc" then -1 else 1)))]

/-- Normalization of one orderBy entry in the maxflow.ts variant: the
source uses a boolean or, so an explicit direction of zero is falsy and
falls back to the order keyword rule. -/
def normOrderMaxflow (ob : OrderBy) : JVal :=
  .vobj [("field", .vstr ob.field),
         ("direction", .vnum (match ob.direction with
            | some v => if v = 0 then (if ob.order = some "desc" then -1 else 1) else v
            | none => if ob.order = some "desc" then -1 else 1))]

/-- OrderBy entry of the query in the maxflowClient.ts variant. -/
def orderByFields (d : FindData) : List (String × JVal) :=
  match d.orderBy with
  | some l => [("orderBy", .varr (l.map normOrderClient))]
  | none => []

/-- OrderBy entry of the query in the maxflow.ts variant. -/
def orderByFieldsMaxflow (d : FindData) : List (String × JVal) :=
  match d.orderBy with
  | some l => [("orderBy", .varr (l.map normOrderMaxflow))]
  | none => []

/-- The query object built by pulse.find of maxflowClient.ts before it
is serialized and sent: match, page, pageSize, search, orderBy entries
in source order, each present only when its input is present. -/
def buildFindQuery (d : FindData) : JVal :=
  .vobj (matchFields d ++ pageFields d ++ searchFields d ++ orderByFields d)

/-- Runtime error raised by the embedded JavaScript code. -/
inductive JsErr where
  | typeError : JsErr
deriving DecidableEq, Repr

/-- The query built by pulse.find of maxflow.ts.  The flat match branch
assigns to a property of query.match, which was never initialized in
that branch, so it raises a TypeError before anything else happens. -/
def buildFindQueryMaxflow (d : FindData) : Except JsErr JVal :=
  match d.matchQ with
  | some (.flat _) => .error .typeError
  | some (.list ts) =>
      .ok (.vobj ([("match", JVal.vobj (buildMatchList ts))] ++ pageFields d
        ++ searchFields d ++ orderByFieldsMaxflow d))
  | none =>
      .ok (.vobj (pageFields d ++ searchFields d ++ orderByFieldsMaxflow d))

/-- The pulse.find operation of maxflow.ts, paired with the list of
requests it sends: on a builder error the rejection escapes before the
http get call, so no request is sent. -/
def pulseFindMaxflow (d : FindData) : Except JsErr JVal × List JVal :=
  match buildFindQueryMaxflow d with
  | .error e => (.error e, [])
  | .ok q => (.ok q, [q])

/-- Options of the push method, as in the PushOptions interface.  An
unset immediately flag behaves as false, matching optional chaining. -/
structure PushOptions where
  debounce : Option Nat := none
  debounce_max_wait : Option Nat := none
  immediately : Bool := false
deriving DecidableEq, Repr

/-- One queued pending push.  The id identifies the promise handed to
the caller; data is an abstract payload identifier. -/
structure QueueItem where
  id : Nat
  data : Nat
  options : Option PushOptions
deriving DecidableEq, Repr

/-- A live setTimeout handle: a generation number making the handle
unique, and the delay the timer was armed with. -/
structure TimerHandle where
  gen : Nat
  delay : Nat
deriving DecidableEq, Repr

/-- Settlement of one pending promise: resolved with a response or
rejected with an error. -/
inductive Outcome where
  | resolved : Nat → Outcome
  | rejected : Nat → Outcome
deriving DecidableEq, Repr

/-- The mutable fields of one client instance relevant to batching,
together with two histories used to observe behavior: log records every
promise settlement as a pair of item id and outcome, and sent records
every payload handed to the transport. -/
structure ClientState where
  queue : List QueueItem
  pushTimeout : Option TimerHandle
  maxAgeTimeout : Option TimerHandle
  nextId : Nat
  nextGen : Nat
  log : List (Nat × Outcome)
  sent : List Nat
deriving DecidableEq, Repr

/-- Default debounce delay of the client, in milliseconds. -/
def QUEUE_DELAY : Nat := 360

/-- Default max wait time of the client, in milliseconds. -/
def MAX_QUEUE_TIME : Nat := 1000

/-- A fresh client: empty queue, no timers, empty histories. -/
def initialState : ClientState :=
  { queue := [], pushTimeout := none, maxAgeTimeout := none,
    nextId := 0, nextGen := 0, log := [], sent := [] }

/-- Conversion of a transport outcome into the settlement performed by
the per-item resolve or reject callback. -/
def settleOutcome : Except Nat Nat → Outcome
  | .ok r => .resolved r
  | .error e => .rejected e

/-- The non-immediate branch of push: append the item, clear and re-arm
the debounce timer, and arm the max-age timer only when the queue length
just became one, with the debounce-max-wait option of that first item
when given (nullish coalescing, so zero is kept) and the default max
queue time otherwise. -/
def pushEnqueue (d : Nat) (o : Option PushOptions) (s : ClientState) : ClientState :=
  let item : QueueItem := { id := s.nextId, data := d, options := o }
  let q := s.queue ++ [item]
  let debounceDelay := (o.bind (fun x => x.debounce)).getD QUEUE_DELAY
  let base : ClientState :=
    { s with
      queue := q
      nextId := s.nextId + 1
      pushTimeout := some { gen := s.nextGen, delay := debounceDelay }
      nextGen := s.nextGen + 1 }
  if q.length = 1 then
    let maxWait := (o.bind (fun x => x.debounce_max_wait)).getD MAX_QUEUE_TIME
    { base with
      maxAgeTimeout := some { gen := base.nextGen, delay := maxWait },
      nextGen := base.nextGen + 1 }
  else base

/-- The push method.  With the immediately option it bypasses the queue
and dispatches a single-item request, returning its outcome directly;
otherwise it enqueues and returns no direct outcome (the promise settles
later from the flush).  The transport oracle maps a payload to the
outcome of its request. -/
def pushOp (oracle : Nat → Except Nat Nat) (d : Nat) (o : Option PushOptions)
    (s : ClientState) : ClientState × Option (Except Nat Nat) :=
  if (o.map (fun x => x.immediately)).getD false then
    ({ s with sent := s.sent ++ [d] }, some (oracle d))
  else
    (pushEnqueue d o s, none)

/-- The flush routine processQueue: return at once on an empty queue;
otherwise snapshot and clear the queue, clear both timers, dispatch each
snapshot item to the transport, and settle each item with the outcome of
its own request. -/
def processQueue (oracle : Nat → Except Nat Nat) (s : ClientState) : ClientState :=
  if s.queue.length = 0 then s
  else
    { s with
      queue := []
      pushTimeout := none
      maxAgeTimeout := none
      sent := s.sent ++ s.queue.map (fun it => it.data)
      log := s.log ++ s.queue.map (fun it => (it.id, settleOutcome (oracle it.data))) }

/-- One event of the cooperative event loop: a push call, or the quiet
timer firing, or the max-wait timer firing.  Both timer callbacks invoke
the flush routine; allowing them in any order, repeated, models the race
in which both timers trigger a flush. -/
inductive Step where
  | push : Nat → Option PushOptions → Step
  | fireQuiet : Step
  | fireMax : Step
deriving DecidableEq, Repr

/-- Interpretation of one event on the client state. -/
def applyStep (oracle : Nat → Except Nat Nat) (s : ClientState) : Step → ClientState
  | .push d o => (pushOp oracle d o s).1
  | .fireQuiet => processQueue oracle s
  | .fireMax => processQueue oracle s

/-- Interpretation of a whole sequence of events. -/
def runSteps (oracle : Nat → Except Nat Nat) (steps : List Step)
    (s : ClientState) : ClientState :=
  steps.foldl (applyStep oracle) s

/-- Ids of the items currently queued. -/
def queueIds (s : ClientState) : List Nat :=
  s.queue.map (fun it => it.id)

/-- Number of settlements recorded for the promise of item i. -/
def settleCount (s : ClientState) (i : Nat) : Nat :=
  (s.log.filter (fun p => p.1 == i)).length

/-- Credential and identity fields of a client, as held in the mutable
instance fields after construction and any setter calls. -/
structure ClientConfig where
  apiKey : Option String := none
  teamId : Option String := none
  apiSecret : Option String := none
  baseURL : String := "https://maxflow.cloud"
deriving DecidableEq, Repr

/-- JavaScript falsiness of a credential field: null (absent) and the
empty string are falsy, any other string is truthy. -/
def isFalsyCred : Option String → Bool
  | none => true
  | some s => s == ""

/-- The validateConfig method: checks apiKey, teamId and apiSecret in
source order and raises the first corresponding error. -/
def validateConfig (c : ClientConfig) : Except String Unit :=
  if isFalsyCred c.apiKey then .error "API Key is not set"
  else if isFalsyCred c.teamId then .error "Team ID is not set"
  else if isFalsyCred c.apiSecret then .error "API Secret is not set"
  else .ok ()

/-- Client state relevant to the lazy http accessor: the configuration
and whether the axios instance has been created yet. -/
structure HttpClient where
  cfg : ClientConfig
  axiosInstance : Bool := false
deriving DecidableEq, Repr

/-- Failure of a public operation: a configuration error raised by
validateConfig, or a transport failure of the request itself. -/
inductive OpError where
  | config : String → OpError
  | transport : Nat → OpError
deriving DecidableEq, Repr

/-- Observable side effects of an operation: an outbound request, or the
arming of a timer.  The direct http operations never arm timers. -/
inductive Effect where
  | request : String → Effect
  | timerSet : Nat → Effect
deriving DecidableEq, Repr

/-- The lazy http accessor: on first use it validates the configuration
before creating the axios instance; afterwards it reuses the instance
without re-validating. -/
def http (c : HttpClient) : Except String HttpClient :=
  if c.axiosInstance = false then
    match validateConfig c.cfg with
    | .error m => .error m
    | .ok _ => .ok { c with axiosInstance := true }
  else .ok c

/-- A direct public operation (run, getExecutionStatus, or any pulse
method): obtain the http instance, then perform one request whose
outcome is given by the transport oracle.  The result is the value the
returned promise settles with, together with the effect trace of the
call. -/
def httpOp (c : HttpClient) (path : String) (oracle : String → Except Nat Nat) :
    HttpClient × Except OpError Nat × List Effect :=
  match http c with
  | .error m => (c, .error (.config m), [])
  | .ok c2 =>
    match oracle path with
    | .ok r => (c2, .ok r, [.request path])
    | .error e => (c2, .error (.transport e), [.request path])

/-- Example transport oracle that fails exactly on payload 11. -/
def oracleFail : Nat → Except Nat Nat :=
  fun d => if d = 11 then .error 99 else .ok (d + 100)

/-- Example client state with three enqueued items and both timers
armed, as after three rapid push calls. -/
def s3 : ClientState :=
  { queue := [{ id := 0, data := 10, options := none },
              { id := 1, data := 11, options := none },
              { id := 2, data := 12, options := none }]
    pushTimeout := some { gen := 3, delay := 360 }
    maxAgeTimeout := some { gen := 1, delay := 1000 }
    nextId := 3, nextGen := 4, log := [], sent := [] }

/-- Example client state right after a flush: empty queue, cleared
timers, two settlements already recorded. -/
def sFlushed : ClientState :=
  { queue := [], pushTimeout := none, maxAgeTimeout := none,
    nextId := 2, nextGen := 2,
    log := [(0, .resolved 110), (1, .resolved 112)], sent := [10, 12] }

/-- C8: invoking the flush routine on an empty queue, as when the second
of two racing timer callbacks runs after the first already flushed, is a
silent no-op: nothing is dispatched, nothing is settled, and the whole
client state is unchanged. -/
theorem processQueue_empty_noop (oracle : Nat → Except Nat Nat) (s : ClientState)
    (h : s.queue = []) : processQueue oracle s = s := by
  simp [processQueue, h]

/-- Witness for C8 at a concrete post-flush state. -/
theorem processQueue_empty_noop_witness :
    sFlushed.queue = [] ∧ processQueue oracleFail sFlushed = sFlushed :=
  ⟨rfl, processQueue_empty_noop oracleFail sFlushed rfl⟩

/-- C7: a flush dispatches every queued item to the transport and
settles each item with the outcome of its own request only, so a failure
of one request rejects only that item while every sibling is settled
according to its own outcome. -/
theorem flush_settles_independently (oracle : Nat → Except Nat Nat) (s : ClientState)
    (h : s.queue ≠ []) :
    (processQueue oracle s).log =
      s.log ++ s.queue.map (fun it => (it.id, settleOutcome (oracle it.data))) ∧
    (processQueue oracle s).sent = s.sent ++ s.queue.map (fun it => it.data) := by
  have hl : ¬ s.queue.length = 0 := by simpa using h
  simp [processQueue, hl]

/-- Witness for C7: flushing three queued items under a transport that
fails the middle one rejects that item and resolves the other two. -/
theorem flush_settles_independently_witness :
    s3.queue ≠ [] ∧
    (processQueue oracleFail s3).log =
      [(0, Outcome.resolved 110), (1, Outcome.rejected 99), (2, Outcome.resolved 112)] :=
  ⟨by decide,
   (flush_settles_independently oracleFail s3 (by decide)).1.trans (by decide)⟩

/-- C6: a push with the immediately option dispatches a single-item
request and returns its outcome directly, leaving the queue, both timer
fields, and the settlement log of any pending batch unchanged, whatever
the outcome of the immediate request. -/
theorem immediate_push_frame (oracle : Nat → Except Nat Nat) (d : Nat)
    (o : Option PushOptions) (s : ClientState)
    (h : (o.map (fun x => x.immediately)).getD false = true) :
    (pushOp oracle d o s).1.queue = s.queue ∧
    (pushOp oracle d o s).1.pushTimeout = s.pushTimeout ∧
    (pushOp oracle d o s).1.maxAgeTimeout = s.maxAgeTimeout ∧
    (pushOp oracle d o s).1.log = s.log ∧
    (pushOp oracle d o s).1.sent = s.sent ++ [d] ∧
    (pushOp oracle d o s).2 = some (oracle d) := by
  simp [pushOp, h]

/-- Example options with the immediately flag set. -/
def optsImm : PushOptions := { immediately := true }

/-- Witness for C6: an immediate push on a client with a pending batch
of three items. -/
theorem immediate_push_frame_witness :
    ((some optsImm).map (fun x => x.immediately)).getD false = true ∧
    (pushOp oracleFail 42 (some optsImm) s3).1.queue = s3.queue ∧
    (pushOp oracleFail 42 (some optsImm) s3).1.pushTimeout = s3.pushTimeout ∧
    (pushOp oracleFail 42 (some optsImm) s3).1.maxAgeTimeout = s3.maxAgeTimeout ∧
    (pushOp oracleFail 42 (some optsImm) s3).1.log = s3.log ∧
    (pushOp oracleFail 42 (some optsImm) s3).1.sent = s3.sent ++ [42] ∧
    (pushOp oracleFail 42 (some optsImm) s3).2 = some (oracleFail 42) :=
  ⟨rfl, immediate_push_frame oracleFail 42 (some optsImm) s3 rfl⟩

/-- Components of pushEnqueue that do not depend on the first-item
branch: the appended queue. -/
theorem pushEnqueue_queue (d : Nat) (o : Option PushOptions) (s : ClientState) :
    (pushEnqueue d o s).queue
      = s.queue ++ [{ id := s.nextId, data := d, options := o }] := by
  simp [pushEnqueue]
  split <;> rfl

/-- The settlement log is untouched by pushEnqueue. -/
theorem pushEnqueue_log (d : Nat) (o : Option PushOptions) (s : ClientState) :
    (pushEnqueue d o s).log = s.log := by
  simp [pushEnqueue]
  split <;> rfl

/-- The next item id advances by one on pushEnqueue. -/
theorem pushEnqueue_nextId (d : Nat) (o : Option PushOptions) (s : ClientState) :
    (pushEnqueue d o s).nextId = s.nextId + 1 := by
  simp [pushEnqueue]
  split <;> rfl

/-- C5: the max-wait timer is armed only by an enqueue onto an empty
queue (the first item of a new batch), with delay equal to the
debounce-max-wait option of that first item when given, zero included
(the timer is still armed, with delay zero), and the default max queue
time of 1000 otherwise; an enqueue onto a nonempty queue leaves the
max-wait timer field exactly as it was. -/
theorem maxwait_timer_first_item_only (d : Nat) (o : Option PushOptions) (s : ClientState) :
    (s.queue = [] →
      (pushEnqueue d o s).maxAgeTimeout =
        some { gen := s.nextGen + 1,
               delay := (o.bind (fun x => x.debounce_max_wait)).getD MAX_QUEUE_TIME }) ∧
    (s.queue ≠ [] → (pushEnqueue d o s).maxAgeTimeout = s.maxAgeTimeout) := by
  constructor
  · intro h
    simp [pushEnqueue, h]
  · intro h
    simp [pushEnqueue, h]

/-- Example options asking for a zero max wait. -/
def optsMW0 : PushOptions := { debounce_max_wait := some 0 }

/-- Example state after one enqueue with a zero max wait option. -/
def s1ex : ClientState := pushEnqueue 5 (some optsMW0) initialState

/-- Witness for C5: the first enqueue with debounce-max-wait zero arms
the max-wait timer with delay zero, and a second enqueue leaves that
timer untouched. -/
theorem maxwait_timer_first_item_only_witness :
    (pushEnqueue 5 (some optsMW0) initialState).maxAgeTimeout
      = some { gen := 1, delay := 0 } ∧
    (pushEnqueue 6 none s1ex).maxAgeTimeout = s1ex.maxAgeTimeout :=
  ⟨(maxwait_timer_first_item_only 5 (some optsMW0) initialState).1 rfl,
   (maxwait_timer_first_item_only 6 none s1ex).2 (by decide)⟩

/-- Settlements contributed by the map of a flush, counted per id,
coincide with occurrences of the id among the queued ids. -/
theorem settle_filter_map (q : List QueueItem) (g : QueueItem → Outcome) (i : Nat) :
    ((q.map (fun it => (it.id, g it))).filter (fun p => p.1 == i)).length
      = ((q.map (fun it => it.id)).filter (fun x => x == i)).length := by
  induction q with
  | nil => rfl
  | cons a t ih =>
      by_cases h : a.id = i <;> simp [List.filter_cons, h, ih]

/-- In a duplicate-free list of ids, a member id occurs exactly once. -/
theorem filter_beq_nodup_mem (l : List Nat) (i : Nat) (hn : l.Nodup) (hm : i ∈ l) :
    (l.filter (fun x => x == i)).length = 1 := by
  induction l with
  | nil => cases hm
  | cons a t ih =>
      obtain ⟨ha, ht⟩ := List.nodup_cons.mp hn
      by_cases hai : a = i
      · subst hai
        have hz : (t.filter (fun x => x == a)).length = 0 := by
          rw [List.length_eq_zero, List.filter_eq_nil_iff]
          intro b hb hbeq
          have hb2 : b = a := by simpa using hbeq
          exact ha (hb2 ▸ hb)
        simp [List.filter_cons, hz]
      · have him : i ∈ t := by
          rcases List.mem_cons.mp hm with hh | hh
          · exact absurd hh.symm hai
          · exact hh
        simp [List.filter_cons, hai, ih ht him]

/-- An id absent from a list of ids occurs zero times. -/
theorem filter_beq_not_mem (l : List Nat) (i : Nat) (hm : i ∉ l) :
    (l.filter (fun x => x == i)).length = 0 := by
  rw [List.length_eq_zero, List.filter_eq_nil_iff]
  intro b hb hbeq
  exact hm ((Nat.eq_of_beq_eq_true (by simpa using hbeq)) ▸ hb)

/-- The settlement invariant of the batching queue: every queued item id
and every logged id was issued; queued ids are pairwise distinct; and
every issued id is either still queued with no settlement, or no longer
queued with exactly one settlement. -/
def QueueInv (s : ClientState) : Prop :=
  (∀ it ∈ s.queue, it.id < s.nextId) ∧
  (∀ p ∈ s.log, p.1 < s.nextId) ∧
  (queueIds s).Nodup ∧
  (∀ i, i < s.nextId →
    (i ∈ queueIds s ∧ settleCount s i = 0) ∨
    (i ∉ queueIds s ∧ settleCount s i = 1))

/-- An id at least as large as every logged id has no settlement. -/
theorem settleCount_eq_zero (s : ClientState) (i : Nat)
    (h : ∀ p ∈ s.log, ¬ p.1 = i) : settleCount s i = 0 := by
  rw [settleCount, List.length_eq_zero, List.filter_eq_nil_iff]
  intro p hp hbeq
  exact h p hp (by simpa using hbeq)

/-- Membership in the queued ids implies the issuance bound. -/
theorem mem_queueIds_lt (s : ClientState)
    (h1 : ∀ it ∈ s.queue, it.id < s.nextId) :
    ∀ a ∈ queueIds s, a < s.nextId := by
  intro a ha
  obtain ⟨it, hit, rfl⟩ := List.mem_map.mp ha
  exact h1 it hit

/-- The invariant is preserved by the enqueue branch of push. -/
theorem inv_pushEnqueue (d : Nat) (o : Option PushOptions) (s : ClientState)
    (h : QueueInv s) : QueueInv (pushEnqueue d o s) := by
  obtain ⟨h1, h2, h3, h4⟩ := h
  have hq := pushEnqueue_queue d o s
  have hl := pushEnqueue_log d o s
  have hn := pushEnqueue_nextId d o s
  have hqids : queueIds (pushEnqueue d o s) = queueIds s ++ [s.nextId] := by
    simp [queueIds, hq]
  have hcount : ∀ j, settleCount (pushEnqueue d o s) j = settleCount s j := by
    intro j
    simp [settleCount, hl]
  refine ⟨?_, ?_, ?_, ?_⟩
  · intro it hit
    rw [hq] at hit
    rw [hn]
    rcases List.mem_append.mp hit with hit | hit
    · exact Nat.lt_succ_of_lt (h1 it hit)
    · simp at hit
      simp [hit]
  · intro p hp
    rw [hl] at hp
    rw [hn]
    exact Nat.lt_succ_of_lt (h2 p hp)
  · rw [hqids]
    refine List.Nodup.append h3 (List.nodup_singleton _) ?_
    intro a ha hb
    have := mem_queueIds_lt s h1 a ha
    simp at hb
    omega
  · intro i hi
    rw [hn] at hi
    rcases Nat.lt_succ_iff_lt_or_eq.mp hi with hi | rfl
    · rcases h4 i hi with ⟨hm, hc⟩ | ⟨hm, hc⟩
      · left
        exact ⟨hqids ▸ List.mem_append_left _ hm, (hcount i).trans hc⟩
      · right
        refine ⟨?_, (hcount i).trans hc⟩
        rw [hqids]
        intro hmem
        rcases List.mem_append.mp hmem with hh | hh
        · exact hm hh
        · simp at hh
          omega
    · left
      refine ⟨?_, ?_⟩
      · rw [hqids]
        exact List.mem_append_right _ (by simp)
      · rw [hcount]
        exact settleCount_eq_zero s _ (fun p hp => Nat.ne_of_lt (h2 p hp))

/-- The invariant is preserved by the flush routine, whichever timer
invoked it and however often it runs. -/
theorem inv_processQueue (oracle : Nat → Except Nat Nat) (s : ClientState)
    (h : QueueInv s) : QueueInv (processQueue oracle s) := by
  obtain ⟨h1, h2, h3, h4⟩ := h
  by_cases hq : s.queue.length = 0
  · simp only [processQueue, if_pos hq]
    exact ⟨h1, h2, h3, h4⟩
  · simp only [processQueue, if_neg hq]
    refine ⟨?_, ?_, ?_, ?_⟩
    · intro it hit
      simp at hit
    · intro p hp
      rcases List.mem_append.mp hp with hp | hp
      · exact h2 p hp
      · obtain ⟨it, hit, hpe⟩ := List.mem_map.mp hp
        rw [← hpe]
        exact h1 it hit
    · simp [queueIds]
    · intro i hi
      right
      refine ⟨by simp [queueIds], ?_⟩
      have hsplit :
          settleCount { s with
            queue := ([] : List QueueItem), pushTimeout := none, maxAgeTimeout := none,
            sent := s.sent ++ s.queue.map (fun it => it.data),
            log := s.log ++ s.queue.map (fun it => (it.id, settleOutcome (oracle it.data))) } i
          = settleCount s i
            + ((s.queue.map (fun it => it.id)).filter (fun x => x == i)).length := by
        simp [settleCount, List.filter_append,
          settle_filter_map s.queue (fun it => settleOutcome (oracle it.data)) i]
      rw [hsplit]
      rw [show List.map (fun it => it.id) s.queue = queueIds s from rfl]
      rcases h4 i hi with ⟨hm, hc⟩ | ⟨hm, hc⟩
      · rw [hc, filter_beq_nodup_mem _ _ h3 hm]
      · rw [hc, filter_beq_not_mem _ _ hm]

/-- The invariant is preserved by every event of the loop. -/
theorem inv_applyStep (oracle : Nat → Except Nat Nat) (s : ClientState) (st : Step)
    (h : QueueInv s) : QueueInv (applyStep oracle s st) := by
  cases st with
  | push d o =>
      show QueueInv (pushOp oracle d o s).1
      cases hio : (o.map (fun x => x.immediately)).getD false
      · simp only [pushOp, hio, Bool.false_eq_true, if_false]
        exact inv_pushEnqueue d o s h
      · obtain ⟨h1, h2, h3, h4⟩ := h
        simp only [pushOp, hio, if_true]
        exact ⟨h1, h2, h3, h4⟩
  | fireQuiet => exact inv_processQueue oracle s h
  | fireMax => exact inv_processQueue oracle s h

/-- The invariant is preserved by every event sequence. -/
theorem inv_runSteps (oracle : Nat → Except Nat Nat) (steps : List Step) (s : ClientState)
    (h : QueueInv s) : QueueInv (runSteps oracle steps s) := by
  induction steps generalizing s with
  | nil => exact h
  | cons st rest ih => exact ih _ (inv_applyStep oracle s st h)

/-- A fresh client satisfies the invariant. -/
theorem inv_initialState : QueueInv initialState := by
  refine ⟨?_, ?_, ?_, ?_⟩ <;> simp [initialState, queueIds]

/-- C1: along every sequence of push calls and timer firings, including
races in which the quiet timer and the max-wait timer both invoke the
flush routine, every enqueued promise is settled at most once and is
settled exactly once as soon as it has left the queue; in particular
whenever the queue is empty every promise ever enqueued has been settled
exactly once, with a single resolution or a single rejection. -/
theorem push_settle_exactly_once (oracle : Nat → Except Nat Nat) (steps : List Step)
    (i : Nat) (h : i < (runSteps oracle steps initialState).nextId) :
    ((i ∈ queueIds (runSteps oracle steps initialState) ∧
        settleCount (runSteps oracle steps initialState) i = 0) ∨
      (i ∉ queueIds (runSteps oracle steps initialState) ∧
        settleCount (runSteps oracle steps initialState) i = 1)) ∧
    ((runSteps oracle steps initialState).queue = [] →
      settleCount (runSteps oracle steps initialState) i = 1) := by
  obtain ⟨-, -, -, h4⟩ := inv_runSteps oracle steps initialState inv_initialState
  have hd := h4 i h
  refine ⟨hd, ?_⟩
  intro hq
  rcases hd with ⟨hm, -⟩ | ⟨-, hc⟩
  · rw [queueIds, hq] at hm
    cases hm
  · exact hc

/-- Event sequence with two enqueues followed by both timers firing, the
race of the two flush triggers. -/
def steps0 : List Step := [.push 7 none, .push 11 none, .fireQuiet, .fireMax]

/-- Witness for C1: after the two-timer race on a batch of two items,
item zero was settled exactly once. -/
theorem push_settle_exactly_once_witness :
    0 < (runSteps oracleFail steps0 initialState).nextId ∧
    (((0 ∈ queueIds (runSteps oracleFail steps0 initialState) ∧
        settleCount (runSteps oracleFail steps0 initialState) 0 = 0) ∨
      (0 ∉ queueIds (runSteps oracleFail steps0 initialState) ∧
        settleCount (runSteps oracleFail steps0 initialState) 0 = 1)) ∧
    ((runSteps oracleFail steps0 initialState).queue = [] →
      settleCount (runSteps oracleFail steps0 initialState) 0 = 1)) :=
  ⟨by decide, push_settle_exactly_once oracleFail steps0 0 (by decide)⟩

/-- Finding in an appended list tries the left part first. -/
theorem findq_append {α : Type} (p : α → Bool) (l1 l2 : List α) :
    (l1 ++ l2).find? p = ((l1.find? p).orElse (fun _ => l2.find? p)) := by
  induction l1 with
  | nil => simp
  | cons a t ih =>
      by_cases h : p a
      · simp [List.find?_cons_of_pos, h]
      · simp [List.find?_cons_of_neg, h, ih]

/-- Lookup at a key held by the head of an association list. -/
theorem lookupKey_cons_of_eq (p : String × JVal) (rest : List (String × JVal))
    (f : String) (h : p.1 = f) : lookupKey (p :: rest) f = some p.2 := by
  simp [lookupKey, List.find?_cons, h]

/-- Lookup at a key not held by the head of an association list. -/
theorem lookupKey_cons_of_ne (p : String × JVal) (rest : List (String × JVal))
    (f : String) (h : ¬ p.1 = f) : lookupKey (p :: rest) f = lookupKey rest f := by
  simp [lookupKey, List.find?_cons, h]

/-- Lookup after a property assignment: the assigned key reads back the
new value, every other key is unaffected. -/
theorem lookupKey_setKey (o : List (String × JVal)) (k : String) (v : JVal) (f : String) :
    lookupKey (setKey o k v) f = if f = k then some v else lookupKey o f := by
  induction o with
  | nil =>
      show lookupKey [(k, v)] f = _
      by_cases hf : f = k
      · rw [if_pos hf, lookupKey_cons_of_eq _ _ _ hf.symm]
      · rw [if_neg hf, lookupKey_cons_of_ne _ _ _ (fun hh => hf hh.symm)]
  | cons p rest ih =>
      by_cases hpk : p.1 = k
      · rw [show setKey (p :: rest) k v = (k, v) :: rest from by simp [setKey, hpk]]
        by_cases hf : f = k
        · rw [if_pos hf, lookupKey_cons_of_eq _ _ _ hf.symm]
        · rw [if_neg hf, lookupKey_cons_of_ne _ _ _ (fun hh => hf hh.symm),
            lookupKey_cons_of_ne _ _ _ (fun hh => hf (by rw [← hh]; exact hpk))]
      · rw [show setKey (p :: rest) k v = p :: setKey rest k v from by simp [setKey, hpk]]
        by_cases hpf : p.1 = f
        · have hfk : ¬ f = k := fun hh => hpk (by rw [hpf, hh])
          rw [lookupKey_cons_of_eq _ _ _ hpf, if_neg hfk, lookupKey_cons_of_eq _ _ _ hpf]
        · rw [lookupKey_cons_of_ne _ _ _ hpf, ih]
          by_cases hf : f = k
          · rw [if_pos hf, if_pos hf]
          · rw [if_neg hf, if_neg hf, lookupKey_cons_of_ne _ _ _ hpf]

/-- Lookup in the match object built by the for loop: the result is the
condition of the last triple naming the looked-up field, found as the
first match in the reversed triple list, and absent keys fall through to
the accumulator. -/
theorem lookupKey_foldl (ts : List MatchTriple) (acc : List (String × JVal)) (f : String) :
    lookupKey (ts.foldl (fun a t => setKey a t.field (condObj t)) acc) f
      = match ts.reverse.find? (fun t => t.field == f) with
        | some t => some (condObj t)
        | none => lookupKey acc f := by
  induction ts generalizing acc with
  | nil => simp
  | cons t rest ih =>
      rw [List.foldl_cons, ih, List.reverse_cons, findq_append]
      cases hfind : rest.reverse.find? (fun u => u.field == f) with
      | some u => simp [Option.orElse]
      | none =>
          simp only [Option.orElse, Option.none_orElse]
          rw [lookupKey_setKey]
          by_cases hf : t.field = f
          · simp [List.find?_cons, hf]
          · have hfe : ¬ f = t.field := fun hh => hf hh.symm
            simp [List.find?_cons, hf, hfe]

/-- The match entry of the built query when the input is a triple list. -/
theorem jsGet_match_list (d : FindData) (ts : List MatchTriple)
    (h : d.matchQ = some (.list ts)) :
    jsGet (buildFindQuery d) "match" = some (.vobj (buildMatchList ts)) := by
  simp [buildFindQuery, jsGet, objFields, matchFields, h, lookupKey, List.find?_cons]

/-- C3: with a triple-list match input, the built query holds a match
mapping in which lookup of any field yields the dollar-prefixed
condition of the last triple naming that field, and nothing for fields
no triple names; in particular two triples on the same field leave only
the condition of the second, with no merging. -/
theorem match_list_last_write_wins (d : FindData) (ts : List MatchTriple) (f : String)
    (h : d.matchQ = some (.list ts)) :
    jsGet (buildFindQuery d) "match" = some (.vobj (buildMatchList ts)) ∧
    lookupKey (buildMatchList ts) f
      = (ts.reverse.find? (fun t => t.field == f)).map
          (fun t => JVal.vobj [("$" ++ t.operator, t.value)]) := by
  refine ⟨jsGet_match_list d ts h, ?_⟩
  rw [buildMatchList, lookupKey_foldl]
  cases hfind : ts.reverse.find? (fun t => t.field == f) with
  | some u => simp [condObj]
  | none => simp [lookupKey]

/-- Example triple list with two conditions on the same field. -/
def tsEx : List MatchTriple :=
  [{ field := "a", operator := "eq", value := .vnum 1 },
   { field := "a", operator := "gt", value := .vnum 2 }]

/-- Example findData carrying the duplicate-field triple list. -/
def dMatchEx : FindData := { matchQ := some (.list tsEx) }

/-- Witness for C3: on the duplicate-field example only the second
condition survives in the output. -/
theorem match_list_last_write_wins_witness :
    (jsGet (buildFindQuery dMatchEx) "match" = some (.vobj (buildMatchList tsEx)) ∧
      lookupKey (buildMatchList tsEx) "a"
        = (tsEx.reverse.find? (fun t => t.field == "a")).map
            (fun t => JVal.vobj [("$" ++ t.operator, t.value)])) ∧
    buildMatchList tsEx = [("a", .vobj [("$gt", .vnum 2)])] :=
  ⟨match_list_last_write_wins dMatchEx tsEx "a" rfl, rfl⟩

/-- Lookup skips an entire prefix none of whose keys match. -/
theorem lookupKey_append_right (l1 l2 : List (String × JVal)) (k : String)
    (h : ∀ p ∈ l1, ¬ p.1 = k) :
    lookupKey (l1 ++ l2) k = lookupKey l2 k := by
  induction l1 with
  | nil => rfl
  | cons a t ih =>
      rw [List.cons_append, lookupKey_cons_of_ne _ _ _ (h a (by simp))]
      exact ih (fun p hp => h p (by simp [hp]))

/-- Every entry the query builder places before the orderBy entry has
one of the keys match, page, pageSize or search. -/
theorem prefixKeys_not_orderBy (d : FindData) :
    ∀ p ∈ matchFields d ++ pageFields d ++ searchFields d, ¬ p.1 = "orderBy" := by
  intro p hp
  rcases List.mem_append.mp hp with hp | hp
  · rcases List.mem_append.mp hp with hp | hp
    · cases hmq : d.matchQ with
      | none => simp [matchFields, hmq] at hp
      | some mi =>
          cases mi with
          | list ts =>
              simp [matchFields, hmq] at hp
              subst hp
              simp
          | flat m =>
              simp [matchFields, hmq] at hp
              subst hp
              simp
    · unfold pageFields at hp
      rcases List.mem_append.mp hp with hp | hp
      · cases hpg : d.page with
        | none => rw [hpg] at hp; simp at hp
        | some v => rw [hpg] at hp; simp at hp; subst hp; simp
      · cases hps : d.pageSize with
        | none => rw [hps] at hp; simp at hp
        | some v => rw [hps] at hp; simp at hp; subst hp; simp
  · cases hs : d.search with
    | none => simp [searchFields, hs] at hp
    | some sv =>
        simp [searchFields, hs] at hp
        subst hp
        simp

/-- The orderBy entry of the built query when an orderBy list is given. -/
theorem jsGet_orderBy (d : FindData) (l : List OrderBy) (h : d.orderBy = some l) :
    jsGet (buildFindQuery d) "orderBy" = some (.varr (l.map normOrderClient)) := by
  show lookupKey (objFields (buildFindQuery d)) "orderBy" = _
  rw [show objFields (buildFindQuery d)
      = (matchFields d ++ pageFields d ++ searchFields d) ++ orderByFields d from by
    simp [buildFindQuery, objFields]]
  rw [lookupKey_append_right _ _ _ (prefixKeys_not_orderBy d)]
  simp [orderByFields, h, lookupKey, List.find?_cons]

/-- Elements of an array value; empty for non-arrays. -/
def arrElems : JVal → List JVal
  | .varr xs => xs
  | _ => []

/-- C4 (amended): in the maxflowClient.ts builder every orderBy entry is
normalized to an object holding exactly the field and a numeric
direction, where the direction is the explicitly given number when
present, zero and five included, else minus one when order is desc, else
one; the order keyword itself never appears in the output entry. -/
theorem orderBy_direction_normalized (d : FindData) (l : List OrderBy) (i : Nat)
    (h : d.orderBy = some l) (hi : i < l.length) :
    (arrElems ((jsGet (buildFindQuery d) "orderBy").getD .undefined))[i]?
      = some (.vobj [("field", .vstr (l.get ⟨i, hi⟩).field),
          ("direction", .vnum ((l.get ⟨i, hi⟩).direction.getD
              (if (l.get ⟨i, hi⟩).order = some "desc" then -1 else 1)))]) := by
  rw [jsGet_orderBy d l h]
  show (arrElems (.varr (l.map normOrderClient)))[i]? = _
  rw [show arrElems (.varr (l.map normOrderClient)) = l.map normOrderClient from rfl]
  rw [List.getElem?_map]
  simp [List.getElem?_eq_getElem hi, normOrderClient]

/-- Example orderBy list using a desc keyword and an explicit direction
of five. -/
def ordEx : List OrderBy :=
  [{ field := "ts", order := some "desc" },
   { field := "ts", direction := some 5 }]

/-- Example findData carrying the orderBy list. -/
def dOrdEx : FindData := { orderBy := some ordEx }

/-- Witness for C4: the desc entry gets direction minus one and the
explicit five survives. -/
theorem orderBy_direction_normalized_witness :
    (arrElems ((jsGet (buildFindQuery dOrdEx) "orderBy").getD .undefined))[1]?
      = some (.vobj [("field", .vstr (ordEx.get ⟨1, by decide⟩).field),
          ("direction", .vnum ((ordEx.get ⟨1, by decide⟩).direction.getD
              (if (ordEx.get ⟨1, by decide⟩).order = some "desc" then -1 else 1)))]) :=
  orderBy_direction_normalized dOrdEx ordEx 1 rfl (by decide)

/-- Counterexample for C4 as stated: in the maxflow.ts variant an
explicit direction of zero is discarded by the boolean or and the output
direction is one, not zero. -/
theorem maxflow_orderBy_zero_direction_cex :
    buildFindQueryMaxflow { orderBy := some [{ field := "ts", direction := some 0 }] }
      = .ok (.vobj [("orderBy",
          .varr [.vobj [("field", .vstr "ts"), ("direction", .vnum 1)]])])
    ∧ (1 : Int) ≠ 0 :=
  ⟨rfl, by decide⟩

/-- Example flat match input in the documented conditions-map style: the
key userId mapped to a dollar-eq condition. -/
def dFlatEx : FindData :=
  { matchQ := some (.flat [("userId", .vobj [("$eq", .vstr "12345")])]) }

/-- C2 (behavior at the failing input): on a flat match mapping the
maxflowClient.ts builder does not copy the keyed condition through;
it reads the absent field, operator and value properties of the mapping,
so the output match is an object keyed by the string undefined holding a
dollar-undefined condition, instead of the userId condition given. -/
theorem flat_match_not_copied_through :
    buildFindQuery dFlatEx
      = .vobj [("match", .vobj [("undefined", .vobj [("$undefined", .undefined)])])]
    ∧ "undefined" ≠ "userId" :=
  ⟨rfl, by decide⟩

/-- C10: in the maxflow.ts variant a flat (non-array) match input always
raises a TypeError inside the builder, because query.match is assigned a
property while still undefined, so pulse.find rejects before sending any
request. -/
theorem maxflow_flat_match_typeerror (d : FindData) (m : List (String × JVal))
    (h : d.matchQ = some (.flat m)) :
    pulseFindMaxflow d = (.error .typeError, []) := by
  simp [pulseFindMaxflow, buildFindQueryMaxflow, h]

/-- Witness for C10 at the documented flat example. -/
theorem maxflow_flat_match_typeerror_witness :
    dFlatEx.matchQ = some (.flat [("userId", .vobj [("$eq", .vstr "12345")])]) ∧
    pulseFindMaxflow dFlatEx = (.error .typeError, []) :=
  ⟨rfl, maxflow_flat_match_typeerror dFlatEx _ rfl⟩

/-- Message of the configuration error raised by validateConfig, or the
empty string when the configuration is valid. -/
def validateMsg (c : ClientConfig) : String :=
  match validateConfig c with
  | .error m => m
  | .ok _ => ""

/-- C9: with a missing credential and a not yet created axios instance,
a public http operation fails with the configuration error and an empty
effect trace, before any request is sent and without touching a timer;
and with a valid configuration every transport failure surfaces as the
error value of the returned promise, never through another channel. -/
theorem config_error_fails_fast (c c2 : HttpClient) (path path2 : String)
    (oracle oracle2 : String → Except Nat Nat)
    (hFresh : c.axiosInstance = false)
    (hMissing : c.cfg.apiKey = none ∨ c.cfg.teamId = none ∨ c.cfg.apiSecret = none)
    (hValid : validateConfig c2.cfg = .ok ()) :
    (httpOp c path oracle).2.1 = .error (.config (validateMsg c.cfg)) ∧
    (httpOp c path oracle).2.2 = [] ∧
    (httpOp c2 path2 oracle2).2.1 = (oracle2 path2).mapError OpError.transport ∧
    (httpOp c2 path2 oracle2).2.2 = [Effect.request path2] := by
  have herr : ∃ m, validateConfig c.cfg = .error m := by
    unfold validateConfig
    by_cases h1 : isFalsyCred c.cfg.apiKey
    · exact ⟨"API Key is not set", by simp [h1]⟩
    · by_cases h2 : isFalsyCred c.cfg.teamId
      · exact ⟨"Team ID is not set", by simp [h1, h2]⟩
      · by_cases h3 : isFalsyCred c.cfg.apiSecret
        · exact ⟨"API Secret is not set", by simp [h1, h2, h3]⟩
        · exfalso
          rcases hMissing with hm | hm | hm
          · exact h1 (by simp [isFalsyCred, hm])
          · exact h2 (by simp [isFalsyCred, hm])
          · exact h3 (by simp [isFalsyCred, hm])
  obtain ⟨m, hm⟩ := herr
  have hmsg : validateMsg c.cfg = m := by simp [validateMsg, hm]
  refine ⟨?_, ?_, ?_, ?_⟩
  · simp [httpOp, http, hFresh, hm, hmsg]
  · simp [httpOp, http, hFresh, hm]
  · cases hax : c2.axiosInstance <;>
      cases ho : oracle2 path2 <;>
      simp [httpOp, http, hax, hValid, ho, Except.mapError]
  · cases hax : c2.axiosInstance <;>
      cases ho : oracle2 path2 <;>
      simp [httpOp, http, hax, hValid, ho]

/-- Example client with no credentials configured. -/
def badClient : HttpClient := { cfg := {} }

/-- Example client with all credentials configured. -/
def goodClient : HttpClient :=
  { cfg := { apiKey := some "k", teamId := some "t", apiSecret := some "s" } }

/-- Example transport failing every request with code 500. -/
def oracle500 : String → Except Nat Nat := fun _ => .error 500

/-- Witness for C9: the unconfigured client fails with the api key
error and no effects, and the configured client surfaces the transport
failure as the rejection value after exactly one request. -/
theorem config_error_fails_fast_witness :
    (httpOp badClient "/api/pulse" oracle500).2.1
      = .error (.config (validateMsg badClient.cfg)) ∧
    (httpOp badClient "/api/pulse" oracle500).2.2 = [] ∧
    (httpOp goodClient "/api/pulse" oracle500).2.1
      = (oracle500 "/api/pulse").mapError OpError.transport ∧
    (httpOp goodClient "/api/pulse" oracle500).2.2 = [Effect.request "/api/pulse"] :=
  config_error_fails_fast badClient goodClient "/api/pulse" "/api/pulse"
    oracle500 oracle500 rfl (Or.inl rfl) rfl
